import Mathlib

/-!
# Verification of the hypothesisapi search client

Shallow embedding of the parts of `hypothesisapi/__init__.py` that the
verified claims concern: response handling (`API._handle_response`,
lines 135-164) and the paginated search generator (`API.search`,
lines 440-572), together with the query-dictionary helpers
(`_remove_none`, line 51; `urlencode(…, doseq=True)`).

Modelling conventions:
* A Python dict used as a query dictionary is an association list in
  insertion order (Python 3.7+ dicts preserve insertion order, and
  `urlencode` iterates items in that order).
* A value stored in the search dictionary is a string, an int, or a
  list of strings (`Value`); a possibly-`None` value is an
  `Option Value`.
* JSON decoding is an external collaborator: an HTTP response carries
  its decoded body (`json`), its raw text (`text`) and its status code.
  `_handle_response` is polymorphic in the body type; the `emptyObj`
  argument is the decoded form of the literal `{}` that the Python code
  returns for status 204 (for search bodies that is a body without a
  "rows" key).
* The search generator is modelled as a function from the list of
  successive HTTP responses the transport would return to the list of
  request dictionaries sent, the list of yielded records, and the final
  outcome.  Exhausting the response list before the loop stops is the
  model artifact `SearchOutcome.outOfResponses`.
* Percent-escaping in `urlencode` is an injective transport detail and
  is not modelled: `urlencode_doseq` produces the ordered list of
  `key=value` pairs of the query string.
-/

/-- A value stored in the Python `search_dict`: a string, an int, or a
list of strings (the latter is emitted as repeated parameters by
`urlencode(..., doseq=True)`). -/
inductive Value where
  | str (s : String)
  | int (n : Int)
  | list (xs : List String)
deriving DecidableEq, Repr

/-- `_remove_none` (line 51-53): remove keys with `None` values from a
dictionary. -/
def _remove_none (d : List (String × Option Value)) : List (String × Value) :=
  d.filterMap fun kv => kv.2.map fun v => (kv.1, v)

/-- Python `d[k] = v` on a dict: overwrite the entry in place when the key
is present, append it otherwise. -/
def dictSet (d : List (String × Value)) (k : String) (v : Value) :
    List (String × Value) :=
  if d.any (fun p => p.1 == k) then
    d.map fun p => if p.1 == k then (p.1, v) else p
  else
    d ++ [(k, v)]

/-- Python `d.get(k)`: the value of the first (only) entry with key `k`. -/
def dictGet (d : List (String × Value)) (k : String) : Option Value :=
  (d.find? fun p => p.1 == k).map fun p => p.2

/-- Python `d.get(k, default)` at an int-valued key.  In the source the
`"offset"` key only ever holds an int, so the non-int fallback is
unreachable there. -/
def dictGetInt (d : List (String × Value)) (k : String) (dflt : Int) : Int :=
  match dictGet d k with
  | some (.int n) => n
  | _ => dflt

/-- Python `d.update(kvs)` on a dict: each key of `kvs` in turn overwrites
an existing entry in place or is appended at the end. -/
def dictUpdate (d : List (String × Option Value))
    (kvs : List (String × Option Value)) : List (String × Option Value) :=
  kvs.foldl (fun acc kv =>
    if acc.any (fun p => p.1 == kv.1) then
      acc.map fun p => if p.1 == kv.1 then (p.1, kv.2) else p
    else
      acc ++ [kv]) d

/-- `urlencode(d, doseq=True)` (line 542): one `key=value` pair per scalar
entry, and one pair per element for a list-valued entry, in dictionary
order. -/
def urlencode_doseq (d : List (String × Value)) : List (String × String) :=
  d.flatMap fun kv =>
    match kv.2 with
    | .str s => [(kv.1, s)]
    | .int n => [(kv.1, toString n)]
    | .list xs => xs.map fun x => (kv.1, x)

/-- The concrete exception class raised by `_handle_response`. -/
inductive ErrorKind where
  | hypothesisAPIError
  | authenticationError
  | notFoundError
  | forbiddenError
deriving DecidableEq, Repr

/-- A raised `HypothesisAPIError` (or subclass): its class, message,
`status_code` attribute and `response` attribute (lines 56-77). -/
structure ApiError where
  kind : ErrorKind
  message : String
  status_code : Option Nat
  response : Option String
deriving DecidableEq, Repr

/-- An HTTP response as seen by the client: status code, decoded JSON
body (`response.json()`), and raw body text (`response.text`). -/
structure HttpResponse (α : Type) where
  status_code : Nat
  json : α
  text : String
deriving DecidableEq, Repr

/-- `API._handle_response` (lines 135-164).  `emptyObj` is the decoded
form of the literal `{}` returned for status 204. -/
def _handle_response {α : Type} (emptyObj : α) (response : HttpResponse α) :
    Except ApiError α :=
  if response.status_code = 200 ∨ response.status_code = 201 then
    .ok response.json
  else if response.status_code = 204 then
    .ok emptyObj
  else if response.status_code = 401 then
    .error ⟨.authenticationError, "Authentication failed. Check your API key.",
            some response.status_code, some response.text⟩
  else if response.status_code = 403 then
    .error ⟨.forbiddenError, "Permission denied for this action.",
            some response.status_code, some response.text⟩
  else if response.status_code = 404 then
    .error ⟨.notFoundError, "Resource not found.",
            some response.status_code, some response.text⟩
  else
    .error ⟨.hypothesisAPIError,
            "API request failed with status " ++ toString response.status_code,
            some response.status_code, some response.text⟩

/-- A result record (`row`): an opaque server mapping of which the search
loop only inspects the `"id"` and `"created"` fields (`row.get("id")`,
`row.get("created")`); `none` models a missing key or an explicit `None`
value.  `payload` stands for the rest of the mapping. -/
structure Record where
  id : Option String
  created : Option String
  payload : String
deriving DecidableEq, Repr, Inhabited

/-- The decoded JSON body of a search response: the loop only reads
`data.get("rows", [])`, so the body is its optional `"rows"` field
(`none` models an absent — or `null`, which the loop treats the same as
empty — `"rows"` field). -/
structure SearchBody where
  rows : Option (List Record)
deriving DecidableEq, Repr

/-- The decoded form of the literal `{}` at the search-body type: no
`"rows"` key. -/
def SearchBody.emptyObj : SearchBody := ⟨none⟩

/-- Python truthiness of an optional string: `None` and `""` are falsy. -/
def truthyStr : Option String → Bool
  | some s => s != ""
  | none => false

/-- The `API` client object; the search claims only use `username` (via
`_get_user_acct`). -/
structure API where
  api_url : String := "https://hypothes.is/api"
  app_url : String := "https://hypothes.is/app"
  username : String
  api_key : String
deriving DecidableEq, Repr

/-- `API._get_user_acct` (lines 120-123): format a username as a
Hypothesis account identifier (`username = user or self.username`). -/
def API._get_user_acct (self : API) (user : Option String) (authority : String) :
    String :=
  let username :=
    match user with
    | some u => if u != "" then u else self.username
    | none => self.username
  "acct:" ++ username ++ "@" ++ authority

/-- The named arguments of `API.search` (lines 440-459), with the Python
defaults; `kwargs` is the `**kwargs` dict (Python keyword binding
guarantees its keys differ from every named parameter, see `kwargsOk`). -/
structure SearchArgs where
  user : Option String := none
  authority : Option String := none
  uri : Option String := none
  url : Option String := none
  wildcard_uri : Option String := none
  text : Option String := none
  any_field : Option String := none
  tag : Option String := none
  tags : Option (List String) := none
  group : Option String := none
  quote : Option String := none
  references : Option String := none
  sort : Option String := none
  order : String := "asc"
  offset : Int := 0
  limit : Int := 200
  search_after : Option String := none
  kwargs : List (String × Option Value) := []
deriving DecidableEq, Repr

/-- Python `a or b` on optional strings (`uri or url`, line 507). -/
def pyOrStr : Option String → Option String → Option String
  | some s, b => if s != "" then some s else b
  | none, b => b

/-- Python `a or d` with a string default (`authority or "hypothes.is"`,
line 503). -/
def pyOrDefault : Option String → String → String
  | some s, d => if s != "" then s else d
  | none, d => d

/-- Construction of `search_dict` (lines 497-536): the base dict in
insertion order, the merged `tag` list, the pagination key
(`search_after` when `search_after is not None`, else `offset`), then
`search_dict.update(kwargs)`. -/
def build_search_dict (self : API) (a : SearchArgs) :
    List (String × Option Value) :=
  let user_acct : Option String :=
    match a.user with
    | some u =>
      if u != "" then
        if u.startsWith "acct:" then some u
        else some (self._get_user_acct (some u) (pyOrDefault a.authority "hypothes.is"))
      else none
    | none => none
  let base : List (String × Option Value) :=
    [("user", user_acct.map .str),
     ("uri", (pyOrStr a.uri a.url).map .str),
     ("wildcard_uri", a.wildcard_uri.map .str),
     ("text", a.text.map .str),
     ("any", a.any_field.map .str),
     ("group", a.group.map .str),
     ("quote", a.quote.map .str),
     ("references", a.references.map .str),
     ("sort", a.sort.map .str),
     ("order", some (.str a.order)),
     ("limit", some (.int a.limit))]
  let tag_list : List String :=
    (match a.tag with
     | some t => if t != "" then [t] else []
     | none => []) ++
    (match a.tags with
     | some ts => ts
     | none => [])
  let withTag :=
    if tag_list != [] then base ++ [("tag", some (.list tag_list))] else base
  let withPage :=
    match a.search_after with
    | some sa => withTag ++ [("search_after", some (.str sa))]
    | none => withTag ++ [("offset", some (.int a.offset))]
  dictUpdate withPage a.kwargs

/-- How a run of the search generator ends: normal exhaustion (`break` /
`StopIteration`), a raised `ApiError`, or — a model artifact — the
supplied response list ran out while the loop would have kept fetching. -/
inductive SearchOutcome where
  | done
  | failed (e : ApiError)
  | outOfResponses
deriving DecidableEq, Repr

/-- The observable behaviour of one run of the generator: the search
dictionaries of the successive requests sent (the i-th request is
answered by the i-th supplied response), the records yielded, and the
outcome. -/
structure SearchResult where
  requests : List (List (String × Value))
  yielded : List Record
  outcome : SearchOutcome
deriving DecidableEq, Repr

/-- The pagination update at the end of a loop iteration (lines 564-572):
in cursor mode set `search_after` to `last_row.get("created", "") +
last_row.get("id", "")`; in offset mode set `offset` to
`search_dict.get("offset", 0) + limit`.  The `rows = []` case never
arises in the loop (the update runs only after a non-empty page). -/
def next_search_dict (limit : Int) (use_cursor_pagination : Bool)
    (search_dict : List (String × Value)) (rows : List Record) :
    List (String × Value) :=
  if use_cursor_pagination then
    match rows.getLast? with
    | some last_row =>
        dictSet search_dict "search_after"
          (.str (last_row.created.getD "" ++ last_row.id.getD ""))
    | none => search_dict
  else
    dictSet search_dict "offset" (.int (dictGetInt search_dict "offset" 0 + limit))

/-- The `while True` loop of `API.search` (lines 541-572), one recursive
step per fetched response: handle the response, break on an absent or
empty `rows`, break when the first record's id is truthy and equal to
`last_seen_id` (loop guard, lines 555-558), otherwise store the first id,
yield the rows, update the pagination key and continue. -/
def searchLoop (limit : Int) (use_cursor_pagination : Bool) :
    List (String × Value) → Option String → List (HttpResponse SearchBody) →
    SearchResult
  | _, _, [] => ⟨[], [], .outOfResponses⟩
  | search_dict, last_seen_id, response :: rest =>
    match _handle_response SearchBody.emptyObj response with
    | .error e => ⟨[search_dict], [], .failed e⟩
    | .ok data =>
      match data.rows.getD [] with
      | [] => ⟨[search_dict], [], .done⟩
      | r0 :: rs =>
        if truthyStr r0.id && (r0.id == last_seen_id) then
          ⟨[search_dict], [], .done⟩
        else
          let t := searchLoop limit use_cursor_pagination
                     (next_search_dict limit use_cursor_pagination search_dict (r0 :: rs))
                     r0.id rest
          ⟨search_dict :: t.requests, (r0 :: rs) ++ t.yielded, t.outcome⟩

/-- `API.search` (lines 440-572): build the query dictionary, drop `None`
values, pick the pagination mode (`use_cursor_pagination = search_after
is not None`), and run the fetch loop with `last_seen_id = None`. -/
def API.search (self : API) (a : SearchArgs)
    (responses : List (HttpResponse SearchBody)) : SearchResult :=
  let search_dict := _remove_none (build_search_dict self a)
  let use_cursor_pagination := a.search_after.isSome
  searchLoop a.limit use_cursor_pagination search_dict none responses

/-- The rows a response would contribute (`data.get("rows", [])` after a
successful `_handle_response`). -/
def rowsOf (r : HttpResponse SearchBody) : List Record :=
  match _handle_response SearchBody.emptyObj r with
  | .ok data => data.rows.getD []
  | .error _ => []

/-- Whether `_handle_response` succeeds on this response. -/
def pageOk (r : HttpResponse SearchBody) : Bool :=
  match _handle_response SearchBody.emptyObj r with
  | .ok _ => true
  | .error _ => false

/-- `rows[0].get("id")` of a response's page. -/
def firstIdOf (r : HttpResponse SearchBody) : Option String :=
  (rowsOf r).head?.bind Record.id

/-- The continuation token derived from a page (line 569):
`last_row.get("created", "") + last_row.get("id", "")`. -/
def pageCursor (r : HttpResponse SearchBody) : String :=
  match (rowsOf r).getLast? with
  | some last_row => last_row.created.getD "" ++ last_row.id.getD ""
  | none => ""

/-- Python keyword binding: `**kwargs` can never contain a key equal to a
named parameter of `search` (such a call raises `TypeError` before the
body runs), so the model only considers kwargs dicts avoiding those
names. -/
def kwargsOk (a : SearchArgs) : Prop :=
  ∀ kv ∈ a.kwargs,
    kv.1 ∉ (["user", "authority", "uri", "url", "wildcard_uri", "text",
      "any_field", "tag", "tags", "group", "quote", "references", "sort",
      "order", "offset", "limit", "search_after"] : List String)

instance (a : SearchArgs) : Decidable (kwargsOk a) := by
  unfold kwargsOk; infer_instance

/-- The entries of a dictionary at one key. -/
def keyParams (k : String) (d : List (String × Value)) :
    List (String × Value) :=
  d.filter fun p => p.1 == k

/-- The entries of a possibly-`None`-valued dictionary at one key. -/
def keyParamsO (k : String) (d : List (String × Option Value)) :
    List (String × Option Value) :=
  d.filter fun p => p.1 == k

/-- The `key=value` pairs of an encoded query string at one key. -/
def queryParams (k : String) (qs : List (String × String)) :
    List (String × String) :=
  qs.filter fun p => p.1 == k

/-- The loop-guard relation between the stored `last_seen_id` and the next
page's first id: the guard does not fire (a truthy first id must differ
from the stored one). -/
def guardR (prev cur : Option String) : Prop :=
  truthyStr cur = true → cur ≠ prev

/-! ## Association-list lemmas -/

theorem find?_eq_filter_head? {β : Type} (p : β → Bool) (l : List β) :
    List.find? p l = (l.filter p).head? := by
  induction l with
  | nil => rfl
  | cons a l ih =>
    by_cases h : p a = true
    · rw [List.find?_cons_of_pos _ h, List.filter_cons_of_pos h, List.head?_cons]
    · rw [List.find?_cons_of_neg _ (by simp [h]), List.filter_cons_of_neg (by simp [h]), ih]

theorem filter_map_set_ne {β : Type} (d : List (String × β)) (k k' : String) (v : β)
    (h : k ≠ k') :
    (d.map fun p => if p.1 == k' then (p.1, v) else p).filter (fun p => p.1 == k) =
      d.filter fun p => p.1 == k := by
  induction d with
  | nil => rfl
  | cons p d ih =>
    by_cases hp : p.1 = k'
    · simp only [List.map_cons, hp, beq_self_eq_true, if_true]
      rw [List.filter_cons_of_neg (by simp [hp, Ne.symm h]),
          List.filter_cons_of_neg (by simp [hp, Ne.symm h]), ih]
    · simp only [List.map_cons, if_neg (by simp [hp] : ¬((p.1 == k') = true))]
      by_cases hk : p.1 = k
      · rw [List.filter_cons_of_pos (by simp [hk]), List.filter_cons_of_pos (by simp [hk]), ih]
      · rw [List.filter_cons_of_neg (by simp [hk]), List.filter_cons_of_neg (by simp [hk]), ih]

theorem filter_map_set_self {β : Type} (d : List (String × β)) (k : String) (v : β) :
    (d.map fun p => if p.1 == k then (p.1, v) else p).filter (fun p => p.1 == k) =
      (d.filter fun p => p.1 == k).map fun _ => (k, v) := by
  induction d with
  | nil => rfl
  | cons p d ih =>
    by_cases hp : p.1 = k
    · simp only [List.map_cons, hp, beq_self_eq_true, if_true]
      rw [List.filter_cons_of_pos (by simp), List.filter_cons_of_pos (by simp [hp]),
          List.map_cons, ih]
    · simp only [List.map_cons, if_neg (by simp [hp] : ¬((p.1 == k) = true))]
      rw [List.filter_cons_of_neg (by simp [hp]), List.filter_cons_of_neg (by simp [hp]), ih]

theorem dictGet_eq_keyParams (d : List (String × Value)) (k : String) :
    dictGet d k = ((keyParams k d).head?).map fun p => p.2 := by
  unfold dictGet keyParams
  rw [find?_eq_filter_head?]

theorem dictGet_dictSet_self (d : List (String × Value)) (k : String) (v : Value) :
    dictGet (dictSet d k v) k = some v := by
  unfold dictGet dictSet
  rw [find?_eq_filter_head?]
  by_cases hany : (d.any fun p => p.1 == k) = true
  · rw [if_pos hany, filter_map_set_self]
    obtain ⟨x, hx, hpx⟩ := List.any_eq_true.mp hany
    have hmem : x ∈ d.filter fun p => p.1 == k := List.mem_filter.mpr ⟨hx, hpx⟩
    cases hf : d.filter fun p => p.1 == k with
    | nil => rw [hf] at hmem; simp at hmem
    | cons a l => simp [hf]
  · rw [if_neg hany, List.filter_append]
    have hnil : (d.filter fun p => p.1 == k) = [] := by
      rw [List.filter_eq_nil_iff]
      intro a ha hpa
      exact hany (List.any_eq_true.mpr ⟨a, ha, hpa⟩)
    simp [hnil]

theorem keyParams_dictSet_ne (d : List (String × Value)) (k k' : String) (v : Value)
    (h : k ≠ k') : keyParams k (dictSet d k' v) = keyParams k d := by
  unfold keyParams dictSet
  by_cases hany : (d.any fun p => p.1 == k') = true
  · rw [if_pos hany]; exact filter_map_set_ne d k k' v h
  · rw [if_neg hany, List.filter_append]
    simp [show ¬((k' == k) = true) by simp [Ne.symm h]]

theorem keyParams_dictSet_singleton (d : List (String × Value)) (k : String)
    (v w : Value) (h : keyParams k d = [(k, w)]) :
    keyParams k (dictSet d k v) = [(k, v)] := by
  have hany : (d.any fun p => p.1 == k) = true := by
    rw [List.any_eq_true]
    have hmem : (k, w) ∈ d.filter fun p => p.1 == k := by
      unfold keyParams at h; rw [h]; exact List.mem_singleton.mpr rfl
    have := List.mem_filter.mp hmem
    exact ⟨(k, w), this.1, this.2⟩
  unfold keyParams dictSet
  rw [if_pos hany, filter_map_set_self]
  unfold keyParams at h
  rw [h]
  rfl

theorem dictGetInt_of_singleton (d : List (String × Value)) (k : String) (m : Int)
    (dflt : Int) (h : keyParams k d = [(k, .int m)]) : dictGetInt d k dflt = m := by
  unfold dictGetInt
  rw [dictGet_eq_keyParams, h]
  rfl

/-- The pairs one dictionary entry contributes to the encoded query
string (the per-entry case split of `urlencode_doseq`). -/
def pairsOf (kv : String × Value) : List (String × String) :=
  match kv.2 with
  | .str s => [(kv.1, s)]
  | .int n => [(kv.1, toString n)]
  | .list xs => xs.map fun x => (kv.1, x)

theorem urlencode_doseq_eq_flatMap (d : List (String × Value)) :
    urlencode_doseq d = d.flatMap pairsOf := rfl

theorem filter_pairsOf (kv : String × Value) (k : String) :
    (pairsOf kv).filter (fun p => p.1 == k) =
      if kv.1 == k then pairsOf kv else [] := by
  rcases kv with ⟨k', v⟩
  by_cases h : k' = k
  · subst h
    cases v with
    | str s => simp [pairsOf]
    | int n => simp [pairsOf]
    | list xs => simp [pairsOf, List.filter_map, Function.comp_def]
  · have h' : (k' == k) = false := by simp [h]
    cases v with
    | str s => simp [pairsOf, h']
    | int n => simp [pairsOf, h']
    | list xs => simp [pairsOf, h', List.filter_map, Function.comp_def]

theorem queryParams_urlencode (k : String) (d : List (String × Value)) :
    queryParams k (urlencode_doseq d) = urlencode_doseq (keyParams k d) := by
  unfold queryParams keyParams
  rw [urlencode_doseq_eq_flatMap, urlencode_doseq_eq_flatMap]
  induction d with
  | nil => rfl
  | cons kv d ih =>
    rw [List.flatMap_cons, List.filter_append, ih]
    by_cases h : kv.1 = k
    · rw [List.filter_cons_of_pos (by simp [h]), List.flatMap_cons, filter_pairsOf]
      simp [h]
    · rw [List.filter_cons_of_neg (by simp [h]), filter_pairsOf]
      simp [show (kv.1 == k) = false by simp [h]]

theorem keyParams_remove_none (k : String) (d : List (String × Option Value)) :
    keyParams k (_remove_none d) = _remove_none (keyParamsO k d) := by
  unfold keyParams keyParamsO _remove_none
  induction d with
  | nil => rfl
  | cons kv d ih =>
    rcases kv with ⟨k', v⟩
    cases v with
    | none =>
      by_cases h : k' = k
      · rw [List.filterMap_cons, List.filter_cons_of_pos (by simp [h]), List.filterMap_cons]
        exact ih
      · rw [List.filterMap_cons, List.filter_cons_of_neg (by simp [h])]
        exact ih
    | some w =>
      have hmap : (List.filterMap (fun kv => Option.map (fun v => (kv.1, v)) kv.2)
          ((k', some w) :: d)) =
          (k', w) :: List.filterMap (fun kv => Option.map (fun v => (kv.1, v)) kv.2) d := rfl
      by_cases h : k' = k
      · rw [hmap, List.filter_cons_of_pos (by simp [h]), List.filter_cons_of_pos (by simp [h])]
        have hmap2 : (List.filterMap (fun kv => Option.map (fun v => (kv.1, v)) kv.2)
            ((k', some w) :: List.filter (fun p => p.1 == k) d)) =
            (k', w) :: List.filterMap (fun kv => Option.map (fun v => (kv.1, v)) kv.2)
              (List.filter (fun p => p.1 == k) d) := rfl
        rw [hmap2]
        exact congrArg _ ih
      · rw [hmap, List.filter_cons_of_neg (by simp [h]), List.filter_cons_of_neg (by simp [h])]
        exact ih

theorem dictUpdate_nil (d : List (String × Option Value)) : dictUpdate d [] = d := rfl

theorem dictUpdate_cons (d : List (String × Option Value)) (kv : String × Option Value)
    (kvs : List (String × Option Value)) :
    dictUpdate d (kv :: kvs) =
      dictUpdate
        (if d.any (fun p => p.1 == kv.1) then
          d.map fun p => if p.1 == kv.1 then (p.1, kv.2) else p
        else d ++ [kv]) kvs := rfl

theorem keyParamsO_dictUpdate (d kvs : List (String × Option Value)) (k : String)
    (h : ∀ kv ∈ kvs, kv.1 ≠ k) :
    keyParamsO k (dictUpdate d kvs) = keyParamsO k d := by
  induction kvs generalizing d with
  | nil => rfl
  | cons kv kvs ih =>
    rw [dictUpdate_cons, ih _ fun x hx => h x (List.mem_cons_of_mem _ hx)]
    have hne : kv.1 ≠ k := h kv (List.mem_cons_self kv kvs)
    by_cases hany : (d.any fun p => p.1 == kv.1) = true
    · rw [if_pos hany]
      exact filter_map_set_ne d k kv.1 kv.2 (Ne.symm hne)
    · rw [if_neg hany]
      unfold keyParamsO
      rw [List.filter_append]
      simp [show (kv.1 == k) = false by simp [hne]]

/-! ## Search-loop step lemmas -/

theorem searchLoop_nil (lim : Int) (uc : Bool) (d : List (String × Value))
    (ls : Option String) : searchLoop lim uc d ls [] = ⟨[], [], .outOfResponses⟩ := rfl

theorem searchLoop_error (lim : Int) (uc : Bool) (d : List (String × Value))
    (ls : Option String) (r : HttpResponse SearchBody)
    (rest : List (HttpResponse SearchBody)) (e : ApiError)
    (h : _handle_response SearchBody.emptyObj r = .error e) :
    searchLoop lim uc d ls (r :: rest) = ⟨[d], [], .failed e⟩ := by
  unfold searchLoop
  rw [h]

theorem searchLoop_empty (lim : Int) (uc : Bool) (d : List (String × Value))
    (ls : Option String) (r : HttpResponse SearchBody)
    (rest : List (HttpResponse SearchBody)) (data : SearchBody)
    (hok : _handle_response SearchBody.emptyObj r = .ok data)
    (hrows : data.rows.getD [] = []) :
    searchLoop lim uc d ls (r :: rest) = ⟨[d], [], .done⟩ := by
  unfold searchLoop
  rw [hok]
  dsimp only
  rw [hrows]

theorem searchLoop_guard (lim : Int) (uc : Bool) (d : List (String × Value))
    (ls : Option String) (r : HttpResponse SearchBody)
    (rest : List (HttpResponse SearchBody)) (data : SearchBody)
    (r0 : Record) (rs : List Record)
    (hok : _handle_response SearchBody.emptyObj r = .ok data)
    (hrows : data.rows.getD [] = r0 :: rs)
    (hg : (truthyStr r0.id && (r0.id == ls)) = true) :
    searchLoop lim uc d ls (r :: rest) = ⟨[d], [], .done⟩ := by
  unfold searchLoop
  rw [hok]
  dsimp only
  rw [hrows]
  simp [hg]

theorem searchLoop_cont (lim : Int) (uc : Bool) (d : List (String × Value))
    (ls : Option String) (r : HttpResponse SearchBody)
    (rest : List (HttpResponse SearchBody)) (data : SearchBody)
    (r0 : Record) (rs : List Record)
    (hok : _handle_response SearchBody.emptyObj r = .ok data)
    (hrows : data.rows.getD [] = r0 :: rs)
    (hg : (truthyStr r0.id && (r0.id == ls)) = false) :
    searchLoop lim uc d ls (r :: rest) =
      ⟨d :: (searchLoop lim uc (next_search_dict lim uc d (r0 :: rs)) r0.id rest).requests,
       (r0 :: rs) ++ (searchLoop lim uc (next_search_dict lim uc d (r0 :: rs)) r0.id rest).yielded,
       (searchLoop lim uc (next_search_dict lim uc d (r0 :: rs)) r0.id rest).outcome⟩ := by
  conv_lhs => rw [searchLoop]
  rw [hok]
  dsimp only
  rw [hrows]
  simp [hg]

theorem API.search_eq (self : API) (a : SearchArgs)
    (responses : List (HttpResponse SearchBody)) :
    API.search self a responses =
      searchLoop a.limit a.search_after.isSome
        (_remove_none (build_search_dict self a)) none responses := rfl

/-! ## Response observers -/

theorem rowsOf_of_ok (r : HttpResponse SearchBody) (data : SearchBody)
    (h : _handle_response SearchBody.emptyObj r = .ok data) :
    rowsOf r = data.rows.getD [] := by
  unfold rowsOf
  rw [h]

theorem pageOk_elim (r : HttpResponse SearchBody) (h : pageOk r = true) :
    ∃ data, _handle_response SearchBody.emptyObj r = .ok data := by
  unfold pageOk at h
  cases hh : _handle_response SearchBody.emptyObj r with
  | ok data => exact ⟨data, rfl⟩
  | error e => rw [hh] at h; simp at h

theorem firstIdOf_of_ok (r : HttpResponse SearchBody) (data : SearchBody)
    (r0 : Record) (rs : List Record)
    (hok : _handle_response SearchBody.emptyObj r = .ok data)
    (hrows : data.rows.getD [] = r0 :: rs) :
    firstIdOf r = r0.id := by
  unfold firstIdOf
  rw [rowsOf_of_ok r data hok, hrows]
  rfl

theorem handle_response_401 {α : Type} (emptyObj : α) (r : HttpResponse α)
    (h : r.status_code = 401) :
    _handle_response emptyObj r =
      .error ⟨.authenticationError, "Authentication failed. Check your API key.",
              some 401, some r.text⟩ := by
  unfold _handle_response
  rw [h]
  norm_num

/-! ## Run-level lemmas -/

theorem searchLoop_requests_head (lim : Int) (uc : Bool) (d : List (String × Value))
    (ls : Option String) (r : HttpResponse SearchBody)
    (rest : List (HttpResponse SearchBody)) :
    ((searchLoop lim uc d ls (r :: rest)).requests).head? = some d := by
  cases hh : _handle_response SearchBody.emptyObj r with
  | error e =>
    rw [searchLoop_error lim uc d ls r rest e hh]
    rfl
  | ok data =>
    cases hrows : data.rows.getD [] with
    | nil =>
      rw [searchLoop_empty lim uc d ls r rest data hh hrows]
      rfl
    | cons r0 rs =>
      by_cases hg : (truthyStr r0.id && (r0.id == ls)) = true
      · rw [searchLoop_guard lim uc d ls r rest data r0 rs hh hrows hg]
        rfl
      · rw [searchLoop_cont lim uc d ls r rest data r0 rs hh hrows (by simpa using hg)]
        rfl

theorem next_search_dict_false (lim : Int) (d : List (String × Value))
    (rows : List Record) :
    next_search_dict lim false d rows =
      dictSet d "offset" (.int (dictGetInt d "offset" 0 + lim)) := rfl

theorem keyParams_next_search_dict (lim : Int) (uc : Bool) (d : List (String × Value))
    (rows : List Record) (k : String)
    (h : k ≠ (if uc then "search_after" else "offset")) :
    keyParams k (next_search_dict lim uc d rows) = keyParams k d := by
  cases uc with
  | false =>
    rw [next_search_dict_false]
    exact keyParams_dictSet_ne d k "offset" _ (by simpa using h)
  | true =>
    unfold next_search_dict
    simp only [if_true]
    cases rows.getLast? with
    | none => rfl
    | some lr => exact keyParams_dictSet_ne d k "search_after" _ (by simpa using h)

theorem searchLoop_requests_keyParams (lim : Int) (uc : Bool) (k : String)
    (h : k ≠ (if uc then "search_after" else "offset")) :
    ∀ (resps : List (HttpResponse SearchBody)) (d : List (String × Value))
      (ls : Option String),
      ∀ d' ∈ (searchLoop lim uc d ls resps).requests, keyParams k d' = keyParams k d := by
  intro resps
  induction resps with
  | nil =>
    intro d ls d' hd'
    rw [searchLoop_nil] at hd'
    simp at hd'
  | cons r rest ih =>
    intro d ls d' hd'
    cases hh : _handle_response SearchBody.emptyObj r with
    | error e =>
      rw [searchLoop_error lim uc d ls r rest e hh] at hd'
      simp only [List.mem_singleton] at hd'
      rw [hd']
    | ok data =>
      cases hrows : data.rows.getD [] with
      | nil =>
        rw [searchLoop_empty lim uc d ls r rest data hh hrows] at hd'
        simp only [List.mem_singleton] at hd'
        rw [hd']
      | cons r0 rs =>
        by_cases hg : (truthyStr r0.id && (r0.id == ls)) = true
        · rw [searchLoop_guard lim uc d ls r rest data r0 rs hh hrows hg] at hd'
          simp only [List.mem_singleton] at hd'
          rw [hd']
        · rw [searchLoop_cont lim uc d ls r rest data r0 rs hh hrows (by simpa using hg)] at hd'
          simp only [List.mem_cons] at hd'
          rcases hd' with hd' | hd'
          · rw [hd']
          · rw [ih _ _ d' hd', keyParams_next_search_dict lim uc d (r0 :: rs) k h]

theorem searchLoop_offset_index (lim : Int) :
    ∀ (resps : List (HttpResponse SearchBody)) (d : List (String × Value))
      (ls : Option String) (m : Int) (i : Nat) (d' : List (String × Value))
      (h : keyParams "offset" d = [("offset", .int m)])
      (hi : (searchLoop lim false d ls resps).requests[i]? = some d'),
      keyParams "offset" d' = [("offset", .int (m + i * lim))] := by
  intro resps
  induction resps with
  | nil =>
    intro d ls m i d' h hi
    rw [searchLoop_nil] at hi
    simp at hi
  | cons r rest ih =>
    intro d ls m i d' h hi
    have singleton_case : ∀ x : SearchResult, x.requests = [d] →
        (searchLoop lim false d ls (r :: rest)) = x →
        keyParams "offset" d' = [("offset", .int (m + i * lim))] := by
      intro x hx heq
      rw [heq, hx] at hi
      cases i with
      | zero =>
        simp only [List.getElem?_cons_zero, Option.some_inj] at hi
        subst hi
        simpa using h
      | succ j => simp at hi
    cases hh : _handle_response SearchBody.emptyObj r with
    | error e =>
      exact singleton_case _ rfl (searchLoop_error lim false d ls r rest e hh)
    | ok data =>
      cases hrows : data.rows.getD [] with
      | nil =>
        exact singleton_case _ rfl (searchLoop_empty lim false d ls r rest data hh hrows)
      | cons r0 rs =>
        by_cases hg : (truthyStr r0.id && (r0.id == ls)) = true
        · exact singleton_case _ rfl (searchLoop_guard lim false d ls r rest data r0 rs hh hrows hg)
        · rw [searchLoop_cont lim false d ls r rest data r0 rs hh hrows
              (by simpa using hg)] at hi
          have hd' : keyParams "offset" (next_search_dict lim false d (r0 :: rs)) =
              [("offset", .int (m + lim))] := by
            rw [next_search_dict_false, dictGetInt_of_singleton d "offset" m 0 h]
            exact keyParams_dictSet_singleton d "offset" _ _ h
          cases i with
          | zero =>
            simp only [List.getElem?_cons_zero, Option.some_inj] at hi
            subst hi
            simpa using h
          | succ j =>
            simp only [List.getElem?_cons_succ] at hi
            have := ih (next_search_dict lim false d (r0 :: rs)) r0.id (m + lim) j d' hd' hi
            rw [this]
            have harith : m + lim + (j : Int) * lim = m + ((j : Nat) + 1 : Nat) * lim := by
              push_cast
              ring
            rw [harith]

theorem searchLoop_cursor_tokens (lim : Int) :
    ∀ (resps : List (HttpResponse SearchBody)) (d : List (String × Value))
      (ls : Option String),
      ∀ pr ∈ (((searchLoop lim true d ls resps).requests).drop 1).zip resps,
        dictGet pr.1 "search_after" = some (.str (pageCursor pr.2)) := by
  intro resps
  induction resps with
  | nil =>
    intro d ls pr hpr
    rw [searchLoop_nil] at hpr
    simp at hpr
  | cons r rest ih =>
    intro d ls pr hpr
    have singleton_case : ∀ x : SearchResult, x.requests = [d] →
        (searchLoop lim true d ls (r :: rest)) = x →
        dictGet pr.1 "search_after" = some (.str (pageCursor pr.2)) := by
      intro x hx heq
      rw [heq, hx] at hpr
      simp at hpr
    cases hh : _handle_response SearchBody.emptyObj r with
    | error e =>
      exact singleton_case _ rfl (searchLoop_error lim true d ls r rest e hh)
    | ok data =>
      cases hrows : data.rows.getD [] with
      | nil =>
        exact singleton_case _ rfl (searchLoop_empty lim true d ls r rest data hh hrows)
      | cons r0 rs =>
        by_cases hg : (truthyStr r0.id && (r0.id == ls)) = true
        · exact singleton_case _ rfl (searchLoop_guard lim true d ls r rest data r0 rs hh hrows hg)
        · rw [searchLoop_cont lim true d ls r rest data r0 rs hh hrows
              (by simpa using hg)] at hpr
          simp only [List.drop_succ_cons, List.drop_zero] at hpr
          cases hreq : (searchLoop lim true (next_search_dict lim true d (r0 :: rs))
              r0.id rest).requests with
          | nil =>
            rw [hreq] at hpr
            simp at hpr
          | cons q qs =>
            rw [hreq] at hpr
            simp only [List.zip_cons_cons, List.mem_cons] at hpr
            rcases hpr with hpr | hpr
            · subst hpr
              cases rest with
              | nil =>
                rw [searchLoop_nil] at hreq
                simp at hreq
              | cons r2 rest2 =>
                have hq : q = next_search_dict lim true d (r0 :: rs) := by
                  have := searchLoop_requests_head lim true
                    (next_search_dict lim true d (r0 :: rs)) r0.id r2 rest2
                  rw [hreq] at this
                  simpa using this
                cases hlast : (r0 :: rs).getLast? with
                | none => simp at hlast
                | some lr =>
                  have hnext : next_search_dict lim true d (r0 :: rs) =
                      dictSet d "search_after"
                        (.str (lr.created.getD "" ++ lr.id.getD "")) := by
                    unfold next_search_dict
                    rw [if_pos rfl, hlast]
                  have hcur : pageCursor r = lr.created.getD "" ++ lr.id.getD "" := by
                    unfold pageCursor
                    rw [rowsOf_of_ok r data hh, hrows, hlast]
                  rw [hq, hnext, hcur]
                  exact dictGet_dictSet_self d "search_after" _
            · have hqs : qs = ((searchLoop lim true (next_search_dict lim true d (r0 :: rs))
                  r0.id rest).requests).drop 1 := by
                rw [hreq]
                rfl
              rw [hqs] at hpr
              exact ih (next_search_dict lim true d (r0 :: rs)) r0.id pr hpr

theorem guard_false_of_guardR (ls : Option String) (r0 : Record)
    (h : guardR ls r0.id) : (truthyStr r0.id && (r0.id == ls)) = false := by
  cases htr : truthyStr r0.id with
  | false => simp [htr]
  | true =>
    have hne : r0.id ≠ ls := h htr
    simp [htr, beq_eq_false_iff_ne.mpr hne]

theorem searchLoop_chain_error (lim : Int) (uc : Bool) :
    ∀ (good : List (HttpResponse SearchBody)) (d : List (String × Value))
      (ls : Option String) (rerr : HttpResponse SearchBody)
      (rest : List (HttpResponse SearchBody)),
      (∀ r ∈ good, pageOk r = true ∧ rowsOf r ≠ []) →
      List.Chain guardR ls (good.map firstIdOf) →
      rerr.status_code = 401 →
      (searchLoop lim uc d ls (good ++ rerr :: rest)).yielded =
        (good.map rowsOf).flatten ∧
      (searchLoop lim uc d ls (good ++ rerr :: rest)).outcome =
        .failed ⟨.authenticationError, "Authentication failed. Check your API key.",
                 some 401, some rerr.text⟩ := by
  intro good
  induction good with
  | nil =>
    intro d ls rerr rest hgood hchain h401
    rw [List.nil_append, searchLoop_error lim uc d ls rerr rest _
        (handle_response_401 SearchBody.emptyObj rerr h401)]
    simp
  | cons g gs ih =>
    intro d ls rerr rest hgood hchain h401
    obtain ⟨hok1, hne1⟩ := hgood g (List.mem_cons_self g gs)
    obtain ⟨data, hdata⟩ := pageOk_elim g hok1
    rw [rowsOf_of_ok g data hdata] at hne1
    cases hrows : data.rows.getD [] with
    | nil => exact absurd hrows hne1
    | cons r0 rs =>
      rw [List.map_cons, List.chain_cons] at hchain
      obtain ⟨hR, hchain'⟩ := hchain
      have hfid : firstIdOf g = r0.id := firstIdOf_of_ok g data r0 rs hdata hrows
      have hg : (truthyStr r0.id && (r0.id == ls)) = false :=
        guard_false_of_guardR ls r0 (hfid ▸ hR)
      rw [List.cons_append,
          searchLoop_cont lim uc d ls g (gs ++ rerr :: rest) data r0 rs hdata hrows hg]
      obtain ⟨hy, ho⟩ := ih (next_search_dict lim uc d (r0 :: rs)) r0.id rerr rest
        (fun r hr => hgood r (List.mem_cons_of_mem g hr)) (hfid ▸ hchain') h401
      refine ⟨?_, ho⟩
      rw [List.map_cons, List.flatten_cons, rowsOf_of_ok g data hdata, hrows, hy]

/-! ## Lemmas about the constructed search dictionary -/

theorem kwargs_ne_of_kwargsOk (a : SearchArgs) (hkw : kwargsOk a) (k : String)
    (hk : k ∈ (["user", "authority", "uri", "url", "wildcard_uri", "text",
      "any_field", "tag", "tags", "group", "quote", "references", "sort",
      "order", "offset", "limit", "search_after"] : List String)) :
    ∀ kv ∈ a.kwargs, kv.1 ≠ k :=
  fun kv hkv heq => hkw kv hkv (heq ▸ hk)

theorem keyParamsO_build_tag (self : API) (a : SearchArgs) (t : String)
    (ts : List String) (hkw : kwargsOk a) (htag : a.tag = some t) (ht : t ≠ "")
    (htags : a.tags = some ts) :
    keyParamsO "tag" (build_search_dict self a) = [("tag", some (.list (t :: ts)))] := by
  simp only [build_search_dict]
  rw [keyParamsO_dictUpdate _ _ _ (kwargs_ne_of_kwargsOk a hkw "tag" (by decide))]
  rw [htag, htags]
  cases hsa : a.search_after with
  | none => simp [keyParamsO, ht]
  | some sa => simp [keyParamsO, ht]

theorem keyParamsO_append (k : String) (l1 l2 : List (String × Option Value)) :
    keyParamsO k (l1 ++ l2) = keyParamsO k l1 ++ keyParamsO k l2 := by
  unfold keyParamsO
  exact List.filter_append l1 l2

theorem keyParamsO_build_tags (self : API) (a : SearchArgs) (hkw : kwargsOk a) :
    keyParamsO "tags" (build_search_dict self a) = [] := by
  simp only [build_search_dict]
  rw [keyParamsO_dictUpdate _ _ _ (kwargs_ne_of_kwargsOk a hkw "tags" (by decide))]
  cases hsa : a.search_after with
  | none =>
    rw [keyParamsO_append]
    split
    · rw [keyParamsO_append]
      simp [keyParamsO]
    · simp [keyParamsO]
  | some sa =>
    rw [keyParamsO_append]
    split
    · rw [keyParamsO_append]
      simp [keyParamsO]
    · simp [keyParamsO]

theorem keyParamsO_build_offset_offsetMode (self : API) (a : SearchArgs)
    (hkw : kwargsOk a) (hsa : a.search_after = none) :
    keyParamsO "offset" (build_search_dict self a) =
      [("offset", some (.int a.offset))] := by
  simp only [build_search_dict]
  rw [keyParamsO_dictUpdate _ _ _ (kwargs_ne_of_kwargsOk a hkw "offset" (by decide))]
  rw [hsa]
  dsimp only
  rw [keyParamsO_append]
  split
  · rw [keyParamsO_append]
    simp [keyParamsO]
  · simp [keyParamsO]

theorem keyParamsO_build_search_after_offsetMode (self : API) (a : SearchArgs)
    (hkw : kwargsOk a) (hsa : a.search_after = none) :
    keyParamsO "search_after" (build_search_dict self a) = [] := by
  simp only [build_search_dict]
  rw [keyParamsO_dictUpdate _ _ _ (kwargs_ne_of_kwargsOk a hkw "search_after" (by decide))]
  rw [hsa]
  dsimp only
  rw [keyParamsO_append]
  split
  · rw [keyParamsO_append]
    simp [keyParamsO]
  · simp [keyParamsO]

theorem keyParamsO_build_search_after_cursorMode (self : API) (a : SearchArgs)
    (sa : String) (hkw : kwargsOk a) (hsa : a.search_after = some sa) :
    keyParamsO "search_after" (build_search_dict self a) =
      [("search_after", some (.str sa))] := by
  simp only [build_search_dict]
  rw [keyParamsO_dictUpdate _ _ _ (kwargs_ne_of_kwargsOk a hkw "search_after" (by decide))]
  rw [hsa]
  dsimp only
  rw [keyParamsO_append]
  split
  · rw [keyParamsO_append]
    simp [keyParamsO]
  · simp [keyParamsO]

theorem keyParamsO_build_offset_cursorMode (self : API) (a : SearchArgs)
    (sa : String) (hkw : kwargsOk a) (hsa : a.search_after = some sa) :
    keyParamsO "offset" (build_search_dict self a) = [] := by
  simp only [build_search_dict]
  rw [keyParamsO_dictUpdate _ _ _ (kwargs_ne_of_kwargsOk a hkw "offset" (by decide))]
  rw [hsa]
  dsimp only
  rw [keyParamsO_append]
  split
  · rw [keyParamsO_append]
    simp [keyParamsO]
  · simp [keyParamsO]

/-! ## Claim theorems -/

/-- C6: `_handle_response` returns the decoded JSON body exactly for
status 200/201, an empty mapping for 204, and otherwise raises exactly
one typed error determined by the status — `AuthenticationError` for
401, `ForbiddenError` for 403, `NotFoundError` for 404, and the
catch-all `HypothesisAPIError` for every other status — carrying the
offending status code and the raw response body. -/
theorem handle_response_matches_taxonomy {α : Type} (emptyObj : α)
    (r : HttpResponse α) :
    (r.status_code = 200 ∨ r.status_code = 201 →
      _handle_response emptyObj r = .ok r.json) ∧
    (r.status_code = 204 → _handle_response emptyObj r = .ok emptyObj) ∧
    (r.status_code = 401 → _handle_response emptyObj r =
      .error ⟨.authenticationError, "Authentication failed. Check your API key.",
              some r.status_code, some r.text⟩) ∧
    (r.status_code = 403 → _handle_response emptyObj r =
      .error ⟨.forbiddenError, "Permission denied for this action.",
              some r.status_code, some r.text⟩) ∧
    (r.status_code = 404 → _handle_response emptyObj r =
      .error ⟨.notFoundError, "Resource not found.",
              some r.status_code, some r.text⟩) ∧
    (r.status_code ∉ ([200, 201, 204, 401, 403, 404] : List Nat) →
      _handle_response emptyObj r =
        .error ⟨.hypothesisAPIError,
                "API request failed with status " ++ toString r.status_code,
                some r.status_code, some r.text⟩) := by
  refine ⟨?_, ?_, ?_, ?_, ?_, ?_⟩
  · intro h
    unfold _handle_response
    rw [if_pos h]
  · intro h
    unfold _handle_response
    rw [if_neg (by omega), if_pos h]
  · intro h
    unfold _handle_response
    rw [if_neg (by omega), if_neg (by omega), if_pos h]
  · intro h
    unfold _handle_response
    rw [if_neg (by omega), if_neg (by omega), if_neg (by omega), if_pos h]
  · intro h
    unfold _handle_response
    rw [if_neg (by omega), if_neg (by omega), if_neg (by omega), if_neg (by omega),
        if_pos h]
  · intro h
    simp only [List.mem_cons, List.not_mem_nil, or_false, not_or] at h
    obtain ⟨h200, h201, h204, h401, h403, h404⟩ := h
    unfold _handle_response
    rw [if_neg (by tauto), if_neg h204, if_neg h401, if_neg h403, if_neg h404]

/-- Witness for C6 at concrete responses of each class. -/
theorem handle_response_matches_taxonomy_witness :
    _handle_response SearchBody.emptyObj
      (⟨200, ⟨some []⟩, "ok"⟩ : HttpResponse SearchBody) = .ok ⟨some []⟩ ∧
    _handle_response SearchBody.emptyObj
      (⟨204, ⟨some []⟩, ""⟩ : HttpResponse SearchBody) = .ok SearchBody.emptyObj ∧
    _handle_response SearchBody.emptyObj
      (⟨401, ⟨none⟩, "denied"⟩ : HttpResponse SearchBody) =
      .error ⟨.authenticationError, "Authentication failed. Check your API key.",
              some 401, some "denied"⟩ ∧
    _handle_response SearchBody.emptyObj
      (⟨403, ⟨none⟩, "no"⟩ : HttpResponse SearchBody) =
      .error ⟨.forbiddenError, "Permission denied for this action.",
              some 403, some "no"⟩ ∧
    _handle_response SearchBody.emptyObj
      (⟨404, ⟨none⟩, "gone"⟩ : HttpResponse SearchBody) =
      .error ⟨.notFoundError, "Resource not found.", some 404, some "gone"⟩ ∧
    _handle_response SearchBody.emptyObj
      (⟨500, ⟨none⟩, "boom"⟩ : HttpResponse SearchBody) =
      .error ⟨.hypothesisAPIError, "API request failed with status 500",
              some 500, some "boom"⟩ :=
  ⟨(handle_response_matches_taxonomy SearchBody.emptyObj _).1 (Or.inl rfl),
   (handle_response_matches_taxonomy SearchBody.emptyObj _).2.1 rfl,
   (handle_response_matches_taxonomy SearchBody.emptyObj _).2.2.1 rfl,
   (handle_response_matches_taxonomy SearchBody.emptyObj _).2.2.2.1 rfl,
   (handle_response_matches_taxonomy SearchBody.emptyObj _).2.2.2.2.1 rfl,
   (handle_response_matches_taxonomy SearchBody.emptyObj _).2.2.2.2.2 (by decide)⟩

theorem guard_false_at_start (r0 : Record) :
    (truthyStr r0.id && (r0.id == (none : Option String))) = false := by
  cases hid : r0.id with
  | none => simp [truthyStr]
  | some s => simp

/-- C2: the search generator yields exactly the rows the server returns
and terminates without error on the first fetch whose `rows` field is
absent or empty: k rows (fewer than the page size) followed by an empty
page give exactly those k records in exactly two requests; an empty
first fetch gives zero records in exactly one request. -/
theorem search_yields_rows_until_empty :
    (∀ (self : API) (a : SearchArgs) (r1 r2 : HttpResponse SearchBody)
       (data1 data2 : SearchBody),
       _handle_response SearchBody.emptyObj r1 = .ok data1 →
       data1.rows.getD [] ≠ [] →
       ((data1.rows.getD []).length : Int) < a.limit →
       _handle_response SearchBody.emptyObj r2 = .ok data2 →
       data2.rows.getD [] = [] →
       (API.search self a [r1, r2]).yielded = data1.rows.getD [] ∧
       (API.search self a [r1, r2]).requests.length = 2 ∧
       (API.search self a [r1, r2]).outcome = .done) ∧
    (∀ (self : API) (a : SearchArgs) (r1 : HttpResponse SearchBody)
       (data1 : SearchBody),
       _handle_response SearchBody.emptyObj r1 = .ok data1 →
       data1.rows.getD [] = [] →
       (API.search self a [r1]).yielded = [] ∧
       (API.search self a [r1]).requests.length = 1 ∧
       (API.search self a [r1]).outcome = .done) := by
  constructor
  · intro self a r1 r2 data1 data2 h1 hne hlt h2 hempty
    rw [API.search_eq]
    cases hrows : data1.rows.getD [] with
    | nil => exact absurd hrows hne
    | cons r0 rs =>
      rw [searchLoop_cont a.limit a.search_after.isSome _ none r1 [r2] data1 r0 rs h1
          hrows (guard_false_at_start r0),
          searchLoop_empty a.limit a.search_after.isSome _ r0.id r2 [] data2 h2 hempty]
      exact ⟨by simp, rfl, rfl⟩
  · intro self a r1 data1 h1 hempty
    rw [API.search_eq,
        searchLoop_empty a.limit a.search_after.isSome _ none r1 [] data1 h1 hempty]
    exact ⟨rfl, rfl, rfl⟩

/-- Witness for C2 at a concrete two-page run and a concrete empty run. -/
theorem search_yields_rows_until_empty_witness :
    ((API.search { username := "u", api_key := "k" } {}
        [⟨200, ⟨some [⟨some "a1", some "t1", "x"⟩, ⟨some "a2", some "t2", "y"⟩]⟩, ""⟩,
         ⟨200, ⟨some []⟩, ""⟩]).yielded =
      [⟨some "a1", some "t1", "x"⟩, ⟨some "a2", some "t2", "y"⟩] ∧
     (API.search { username := "u", api_key := "k" } {}
        [⟨200, ⟨some [⟨some "a1", some "t1", "x"⟩, ⟨some "a2", some "t2", "y"⟩]⟩, ""⟩,
         ⟨200, ⟨some []⟩, ""⟩]).requests.length = 2 ∧
     (API.search { username := "u", api_key := "k" } {}
        [⟨200, ⟨some [⟨some "a1", some "t1", "x"⟩, ⟨some "a2", some "t2", "y"⟩]⟩, ""⟩,
         ⟨200, ⟨some []⟩, ""⟩]).outcome = .done) ∧
    ((API.search { username := "u", api_key := "k" } {}
        [⟨200, ⟨some []⟩, ""⟩]).yielded = [] ∧
     (API.search { username := "u", api_key := "k" } {}
        [⟨200, ⟨some []⟩, ""⟩]).requests.length = 1 ∧
     (API.search { username := "u", api_key := "k" } {}
        [⟨200, ⟨some []⟩, ""⟩]).outcome = .done) :=
  ⟨search_yields_rows_until_empty.1 { username := "u", api_key := "k" } {} _ _
      ⟨some [⟨some "a1", some "t1", "x"⟩, ⟨some "a2", some "t2", "y"⟩]⟩ ⟨some []⟩
      rfl (by decide) (by decide) rfl rfl,
   search_yields_rows_until_empty.2 { username := "u", api_key := "k" } {} _
      ⟨some []⟩ rfl rfl⟩

/-- C1: from any reachable loop state, when two consecutively fetched
pages have the same (present, non-empty) first-record identifier,
iteration stops right after the second fetch: the first page's records
are yielded exactly once and the repeated page's records are never
yielded. -/
theorem search_loop_guard_stops (lim : Int) (uc : Bool) (d : List (String × Value))
    (ls : Option String) (r1 r2 : HttpResponse SearchBody)
    (rest : List (HttpResponse SearchBody)) (data1 data2 : SearchBody)
    (r0 q0 : Record) (rs qs : List Record) (s : String)
    (h1 : _handle_response SearchBody.emptyObj r1 = .ok data1)
    (hrows1 : data1.rows.getD [] = r0 :: rs)
    (hid1 : r0.id = some s) (hs : s ≠ "") (hls : ls ≠ some s)
    (h2 : _handle_response SearchBody.emptyObj r2 = .ok data2)
    (hrows2 : data2.rows.getD [] = q0 :: qs)
    (hid2 : q0.id = some s) :
    (searchLoop lim uc d ls (r1 :: r2 :: rest)).yielded = r0 :: rs ∧
    (searchLoop lim uc d ls (r1 :: r2 :: rest)).outcome = .done ∧
    (searchLoop lim uc d ls (r1 :: r2 :: rest)).requests.length = 2 := by
  have hg1 : (truthyStr r0.id && (r0.id == ls)) = false := by
    have : (r0.id == ls) = false := beq_eq_false_iff_ne.mpr (by rw [hid1]; exact fun h => hls h.symm)
    simp [this]
  have hg2 : (truthyStr q0.id && (q0.id == r0.id)) = true := by
    rw [hid1, hid2]
    simp [truthyStr, hs]
  rw [searchLoop_cont lim uc d ls r1 (r2 :: rest) data1 r0 rs h1 hrows1 hg1,
      searchLoop_guard lim uc _ r0.id r2 rest data2 q0 qs h2 hrows2 hg2]
  exact ⟨by simp, rfl, rfl⟩

/-- Witness for C1 at a concrete repeated page. -/
theorem search_loop_guard_stops_witness :
    (searchLoop 200 false [] none
      [⟨200, ⟨some [⟨some "a1", none, "x"⟩]⟩, ""⟩,
       ⟨200, ⟨some [⟨some "a1", none, "x"⟩]⟩, ""⟩]).yielded =
      [⟨some "a1", none, "x"⟩] ∧
    (searchLoop 200 false [] none
      [⟨200, ⟨some [⟨some "a1", none, "x"⟩]⟩, ""⟩,
       ⟨200, ⟨some [⟨some "a1", none, "x"⟩]⟩, ""⟩]).outcome = .done ∧
    (searchLoop 200 false [] none
      [⟨200, ⟨some [⟨some "a1", none, "x"⟩]⟩, ""⟩,
       ⟨200, ⟨some [⟨some "a1", none, "x"⟩]⟩, ""⟩]).requests.length = 2 :=
  search_loop_guard_stops 200 false [] none _ _ [] ⟨some [⟨some "a1", none, "x"⟩]⟩
    ⟨some [⟨some "a1", none, "x"⟩]⟩ ⟨some "a1", none, "x"⟩ ⟨some "a1", none, "x"⟩ [] []
    "a1" rfl rfl rfl (by decide) (by decide) rfl rfl rfl

/-- C9: the loop guard applies unchanged in cursor mode: with
`use_cursor_pagination = true`, two consecutive pages with the same
truthy first-record identifier stop iteration after the second fetch
even though the second request carried the updated continuation token
derived from the first page. -/
theorem search_loop_guard_stops_cursor (lim : Int) (d : List (String × Value))
    (ls : Option String) (r1 r2 : HttpResponse SearchBody)
    (rest : List (HttpResponse SearchBody)) (data1 data2 : SearchBody)
    (r0 q0 : Record) (rs qs : List Record) (s : String)
    (h1 : _handle_response SearchBody.emptyObj r1 = .ok data1)
    (hrows1 : data1.rows.getD [] = r0 :: rs)
    (hid1 : r0.id = some s) (hs : s ≠ "") (hls : ls ≠ some s)
    (h2 : _handle_response SearchBody.emptyObj r2 = .ok data2)
    (hrows2 : data2.rows.getD [] = q0 :: qs)
    (hid2 : q0.id = some s) :
    (searchLoop lim true d ls (r1 :: r2 :: rest)).yielded = r0 :: rs ∧
    (searchLoop lim true d ls (r1 :: r2 :: rest)).outcome = .done ∧
    (searchLoop lim true d ls (r1 :: r2 :: rest)).requests =
      [d, next_search_dict lim true d (r0 :: rs)] ∧
    dictGet (next_search_dict lim true d (r0 :: rs)) "search_after" =
      some (.str (pageCursor r1)) := by
  have hg1 : (truthyStr r0.id && (r0.id == ls)) = false := by
    have : (r0.id == ls) = false := beq_eq_false_iff_ne.mpr (by rw [hid1]; exact fun h => hls h.symm)
    simp [this]
  have hg2 : (truthyStr q0.id && (q0.id == r0.id)) = true := by
    rw [hid1, hid2]
    simp [truthyStr, hs]
  refine ⟨?_, ?_, ?_, ?_⟩
  · rw [searchLoop_cont lim true d ls r1 (r2 :: rest) data1 r0 rs h1 hrows1 hg1,
        searchLoop_guard lim true _ r0.id r2 rest data2 q0 qs h2 hrows2 hg2]
    simp
  · rw [searchLoop_cont lim true d ls r1 (r2 :: rest) data1 r0 rs h1 hrows1 hg1,
        searchLoop_guard lim true _ r0.id r2 rest data2 q0 qs h2 hrows2 hg2]
  · rw [searchLoop_cont lim true d ls r1 (r2 :: rest) data1 r0 rs h1 hrows1 hg1,
        searchLoop_guard lim true _ r0.id r2 rest data2 q0 qs h2 hrows2 hg2]
  · cases hlast : (r0 :: rs).getLast? with
    | none => simp at hlast
    | some lr =>
      have hnext : next_search_dict lim true d (r0 :: rs) =
          dictSet d "search_after" (.str (lr.created.getD "" ++ lr.id.getD "")) := by
        unfold next_search_dict
        rw [if_pos rfl, hlast]
      have hcur : pageCursor r1 = lr.created.getD "" ++ lr.id.getD "" := by
        unfold pageCursor
        rw [rowsOf_of_ok r1 data1 h1, hrows1, hlast]
      rw [hnext, hcur]
      exact dictGet_dictSet_self d "search_after" _

/-- Witness for C9 at a concrete cursor-mode repeated page. -/
theorem search_loop_guard_stops_cursor_witness :
    (searchLoop 200 true [("search_after", .str "tok")] none
      [⟨200, ⟨some [⟨some "a1", some "t1", "x"⟩]⟩, ""⟩,
       ⟨200, ⟨some [⟨some "a1", some "t1", "x"⟩]⟩, ""⟩]).yielded =
      [⟨some "a1", some "t1", "x"⟩] ∧
    (searchLoop 200 true [("search_after", .str "tok")] none
      [⟨200, ⟨some [⟨some "a1", some "t1", "x"⟩]⟩, ""⟩,
       ⟨200, ⟨some [⟨some "a1", some "t1", "x"⟩]⟩, ""⟩]).outcome = .done ∧
    (searchLoop 200 true [("search_after", .str "tok")] none
      [⟨200, ⟨some [⟨some "a1", some "t1", "x"⟩]⟩, ""⟩,
       ⟨200, ⟨some [⟨some "a1", some "t1", "x"⟩]⟩, ""⟩]).requests =
      [[("search_after", .str "tok")],
       next_search_dict 200 true [("search_after", .str "tok")]
         [⟨some "a1", some "t1", "x"⟩]] ∧
    dictGet (next_search_dict 200 true [("search_after", .str "tok")]
        [⟨some "a1", some "t1", "x"⟩]) "search_after" =
      some (.str (pageCursor ⟨200, ⟨some [⟨some "a1", some "t1", "x"⟩]⟩, ""⟩)) :=
  search_loop_guard_stops_cursor 200 [("search_after", .str "tok")] none _ _ []
    ⟨some [⟨some "a1", some "t1", "x"⟩]⟩ ⟨some [⟨some "a1", some "t1", "x"⟩]⟩
    ⟨some "a1", some "t1", "x"⟩ ⟨some "a1", some "t1", "x"⟩ [] [] "a1"
    rfl rfl rfl (by decide) (by decide) rfl rfl rfl

/-- C10: the loop guard fires only on a truthy first-record id: when the
newly fetched page's first record has no id, a `None` id, or an empty
id, the comparison is skipped, the stored last-seen identifier is
overwritten with that falsy value (it becomes the next state's
`last_seen_id`), and iteration continues — even from a state whose
stored identifier is identical. -/
theorem search_loop_falsy_id_continues (lim : Int) (uc : Bool)
    (d : List (String × Value)) (ls : Option String) (r : HttpResponse SearchBody)
    (rest : List (HttpResponse SearchBody)) (data : SearchBody)
    (r0 : Record) (rs : List Record)
    (hok : _handle_response SearchBody.emptyObj r = .ok data)
    (hrows : data.rows.getD [] = r0 :: rs)
    (hfalsy : truthyStr r0.id = false) :
    searchLoop lim uc d ls (r :: rest) =
      ⟨d :: (searchLoop lim uc (next_search_dict lim uc d (r0 :: rs)) r0.id rest).requests,
       (r0 :: rs) ++ (searchLoop lim uc (next_search_dict lim uc d (r0 :: rs)) r0.id rest).yielded,
       (searchLoop lim uc (next_search_dict lim uc d (r0 :: rs)) r0.id rest).outcome⟩ :=
  searchLoop_cont lim uc d ls r rest data r0 rs hok hrows (by simp [hfalsy])

/-- Witness for C10: a page whose first record has no id, repeated
twice, keeps iterating (both copies are yielded). -/
theorem search_loop_falsy_id_continues_witness :
    searchLoop 200 false [] (some "") [⟨200, ⟨some [⟨none, none, "x"⟩]⟩, ""⟩,
        ⟨200, ⟨some [⟨none, none, "x"⟩]⟩, ""⟩] =
      ⟨[] :: (searchLoop 200 false (next_search_dict 200 false [] [⟨none, none, "x"⟩])
          (Record.id ⟨none, none, "x"⟩) [⟨200, ⟨some [⟨none, none, "x"⟩]⟩, ""⟩]).requests,
       [⟨none, none, "x"⟩] ++ (searchLoop 200 false (next_search_dict 200 false [] [⟨none, none, "x"⟩])
          (Record.id ⟨none, none, "x"⟩) [⟨200, ⟨some [⟨none, none, "x"⟩]⟩, ""⟩]).yielded,
       (searchLoop 200 false (next_search_dict 200 false [] [⟨none, none, "x"⟩])
          (Record.id ⟨none, none, "x"⟩) [⟨200, ⟨some [⟨none, none, "x"⟩]⟩, ""⟩]).outcome⟩ :=
  search_loop_falsy_id_continues 200 false [] (some "") _ _ ⟨some [⟨none, none, "x"⟩]⟩
    ⟨none, none, "x"⟩ [] rfl rfl rfl

/-- C3: when both a single tag and a list of tags are supplied, every
outgoing request carries one repeated `tag=` parameter per tag — the
single tag first, then the list tags in order — and never a `tags=`
parameter (nor any comma-joined encoding). -/
theorem search_tag_params (self : API) (a : SearchArgs) (t : String)
    (ts : List String) (resps : List (HttpResponse SearchBody))
    (hkw : kwargsOk a) (htag : a.tag = some t) (ht : t ≠ "")
    (htags : a.tags = some ts) :
    ∀ d' ∈ (API.search self a resps).requests,
      queryParams "tag" (urlencode_doseq d') = (t :: ts).map (fun x => ("tag", x)) ∧
      queryParams "tags" (urlencode_doseq d') = [] := by
  intro d' hd'
  rw [API.search_eq] at hd'
  have hpres_tag := searchLoop_requests_keyParams a.limit a.search_after.isSome "tag"
    (by cases a.search_after.isSome <;> decide) resps _ none d' hd'
  have hpres_tags := searchLoop_requests_keyParams a.limit a.search_after.isSome "tags"
    (by cases a.search_after.isSome <;> decide) resps _ none d' hd'
  constructor
  · rw [queryParams_urlencode, hpres_tag, keyParams_remove_none,
        keyParamsO_build_tag self a t ts hkw htag ht htags]
    simp [urlencode_doseq, _remove_none]
  · rw [queryParams_urlencode, hpres_tags, keyParams_remove_none,
        keyParamsO_build_tags self a hkw]
    rfl

/-- Witness for C3 on a concrete one-page run. -/
theorem search_tag_params_witness :
    queryParams "tag" (urlencode_doseq
      (((API.search { username := "u", api_key := "k" }
          { tag := some "t0", tags := some ["t1", "t2"] }
          [⟨200, ⟨some []⟩, ""⟩]).requests).headD [])) =
      [("tag", "t0"), ("tag", "t1"), ("tag", "t2")] ∧
    queryParams "tags" (urlencode_doseq
      (((API.search { username := "u", api_key := "k" }
          { tag := some "t0", tags := some ["t1", "t2"] }
          [⟨200, ⟨some []⟩, ""⟩]).requests).headD [])) = [] := by
  have h := search_tag_params { username := "u", api_key := "k" }
    { tag := some "t0", tags := some ["t1", "t2"] } "t0" ["t1", "t2"]
    [⟨200, ⟨some []⟩, ""⟩] (by decide) rfl (by decide) rfl
    (((API.search { username := "u", api_key := "k" }
        { tag := some "t0", tags := some ["t1", "t2"] }
        [⟨200, ⟨some []⟩, ""⟩]).requests).headD [])
    (by decide)
  exact ⟨h.1, h.2⟩

/-- C4: with `search_after` set no `offset` parameter is ever sent and
each follow-up request's `search_after` equals the previous page's last
record's `created` timestamp concatenated with its `id`; without
`search_after`, no `search_after` parameter is ever sent. -/
theorem search_pagination_modes (self : API) (a : SearchArgs)
    (resps : List (HttpResponse SearchBody)) (hkw : kwargsOk a) :
    (∀ sa, a.search_after = some sa →
      (∀ d' ∈ (API.search self a resps).requests,
        queryParams "offset" (urlencode_doseq d') = []) ∧
      (∀ pr ∈ (((API.search self a resps).requests).drop 1).zip resps,
        dictGet pr.1 "search_after" = some (.str (pageCursor pr.2)))) ∧
    (a.search_after = none →
      ∀ d' ∈ (API.search self a resps).requests,
        queryParams "search_after" (urlencode_doseq d') = []) := by
  constructor
  · intro sa hsa
    constructor
    · intro d' hd'
      rw [API.search_eq] at hd'
      rw [hsa] at hd'
      simp only [Option.isSome_some] at hd'
      have hpres := searchLoop_requests_keyParams a.limit true "offset"
        (by decide) resps _ none d' hd'
      rw [queryParams_urlencode, hpres, keyParams_remove_none,
          keyParamsO_build_offset_cursorMode self a sa hkw hsa]
      rfl
    · intro pr hpr
      rw [API.search_eq] at hpr
      rw [hsa] at hpr
      simp only [Option.isSome_some] at hpr
      exact searchLoop_cursor_tokens a.limit resps _ none pr hpr
  · intro hsa d' hd'
    rw [API.search_eq] at hd'
    rw [hsa] at hd'
    simp only [Option.isSome_none] at hd'
    have hpres := searchLoop_requests_keyParams a.limit false "search_after"
      (by decide) resps _ none d' hd'
    rw [queryParams_urlencode, hpres, keyParams_remove_none,
        keyParamsO_build_search_after_offsetMode self a hkw hsa]
    rfl

/-- Witness for C4 on concrete cursor-mode and offset-mode runs. -/
theorem search_pagination_modes_witness :
    (queryParams "offset" (urlencode_doseq
      (((API.search { username := "u", api_key := "k" } { search_after := some "tok" }
          [⟨200, ⟨some [⟨some "a1", some "t1", "x"⟩]⟩, ""⟩,
           ⟨200, ⟨some []⟩, ""⟩]).requests).headD [])) = []) ∧
    (dictGet (((API.search { username := "u", api_key := "k" } { search_after := some "tok" }
          [⟨200, ⟨some [⟨some "a1", some "t1", "x"⟩]⟩, ""⟩,
           ⟨200, ⟨some []⟩, ""⟩]).requests).getD 1 []) "search_after" =
      some (.str (pageCursor ⟨200, ⟨some [⟨some "a1", some "t1", "x"⟩]⟩, ""⟩))) ∧
    (queryParams "search_after" (urlencode_doseq
      (((API.search { username := "u", api_key := "k" } {}
          [⟨200, ⟨some []⟩, ""⟩]).requests).headD [])) = []) := by
  have h := search_pagination_modes { username := "u", api_key := "k" }
    { search_after := some "tok" }
    [⟨200, ⟨some [⟨some "a1", some "t1", "x"⟩]⟩, ""⟩, ⟨200, ⟨some []⟩, ""⟩] (by decide)
  have h2 := search_pagination_modes { username := "u", api_key := "k" } {}
    [⟨200, ⟨some []⟩, ""⟩] (by decide)
  refine ⟨?_, ?_, ?_⟩
  · exact (h.1 "tok" rfl).1 _ (by decide)
  · exact (h.1 "tok" rfl).2
      ((((API.search { username := "u", api_key := "k" } { search_after := some "tok" }
          [⟨200, ⟨some [⟨some "a1", some "t1", "x"⟩]⟩, ""⟩,
           ⟨200, ⟨some []⟩, ""⟩]).requests).getD 1 []),
       ⟨200, ⟨some [⟨some "a1", some "t1", "x"⟩]⟩, ""⟩) (by decide)
  · exact h2.2 rfl _ (by decide)

/-- C5: in offset mode the `offset` parameter of the i-th request equals
the starting offset plus i times the page-size limit (so with the
default start it runs 0, limit, 2·limit, …). -/
theorem search_offset_progression (self : API) (a : SearchArgs)
    (resps : List (HttpResponse SearchBody)) (i : Nat) (d' : List (String × Value))
    (hkw : kwargsOk a) (hsa : a.search_after = none)
    (hi : (API.search self a resps).requests[i]? = some d') :
    queryParams "offset" (urlencode_doseq d') =
      [("offset", toString (a.offset + (i : Int) * a.limit))] := by
  rw [API.search_eq] at hi
  rw [hsa] at hi
  simp only [Option.isSome_none] at hi
  have h0 : keyParams "offset" (_remove_none (build_search_dict self a)) =
      [("offset", .int a.offset)] := by
    rw [keyParams_remove_none, keyParamsO_build_offset_offsetMode self a hkw hsa]
    rfl
  have hkey := searchLoop_offset_index a.limit resps _ none a.offset i d' h0 hi
  rw [queryParams_urlencode, hkey]
  rfl

/-- Witness for C5: a three-page run with page size 50 sends offsets
0, 50, 100. -/
theorem search_offset_progression_witness :
    queryParams "offset" (urlencode_doseq
      (((API.search { username := "u", api_key := "k" } { limit := 50 }
          [⟨200, ⟨some [⟨some "a1", none, ""⟩]⟩, ""⟩,
           ⟨200, ⟨some [⟨some "a2", none, ""⟩]⟩, ""⟩,
           ⟨200, ⟨some [⟨some "a3", none, ""⟩]⟩, ""⟩]).requests).getD 2 [])) =
      [("offset", "100")] := by
  have h := search_offset_progression { username := "u", api_key := "k" } { limit := 50 }
    [⟨200, ⟨some [⟨some "a1", none, ""⟩]⟩, ""⟩,
     ⟨200, ⟨some [⟨some "a2", none, ""⟩]⟩, ""⟩,
     ⟨200, ⟨some [⟨some "a3", none, ""⟩]⟩, ""⟩] 2
    (((API.search { username := "u", api_key := "k" } { limit := 50 }
        [⟨200, ⟨some [⟨some "a1", none, ""⟩]⟩, ""⟩,
         ⟨200, ⟨some [⟨some "a2", none, ""⟩]⟩, ""⟩,
         ⟨200, ⟨some [⟨some "a3", none, ""⟩]⟩, ""⟩]).requests).getD 2 [])
    (by decide) rfl (by decide)
  simpa using h

/-- C7: a 401 on any page fetch raises `AuthenticationError` at that
fetch; the records delivered before the error are exactly the
concatenation of the earlier pages — none on a first-page failure, and
no retraction of pages already yielded on a later failure. -/
theorem search_auth_error_mid_run (self : API) (a : SearchArgs)
    (good : List (HttpResponse SearchBody)) (rerr : HttpResponse SearchBody)
    (rest : List (HttpResponse SearchBody))
    (hgood : ∀ r ∈ good, pageOk r = true ∧ rowsOf r ≠ [])
    (hchain : List.Chain guardR none (good.map firstIdOf))
    (h401 : rerr.status_code = 401) :
    (API.search self a (good ++ rerr :: rest)).yielded = (good.map rowsOf).flatten ∧
    (API.search self a (good ++ rerr :: rest)).outcome =
      .failed ⟨.authenticationError, "Authentication failed. Check your API key.",
               some 401, some rerr.text⟩ := by
  rw [API.search_eq]
  exact searchLoop_chain_error a.limit a.search_after.isSome good _ none rerr rest
    hgood hchain h401

/-- Witness for C7: a 401 on the first fetch yields nothing; a 401 after
one good page leaves exactly that page's records delivered. -/
theorem search_auth_error_mid_run_witness :
    ((API.search { username := "u", api_key := "k" } {}
        [⟨401, ⟨none⟩, "denied"⟩]).yielded = [] ∧
     (API.search { username := "u", api_key := "k" } {}
        [⟨401, ⟨none⟩, "denied"⟩]).outcome =
       .failed ⟨.authenticationError, "Authentication failed. Check your API key.",
                some 401, some "denied"⟩) ∧
    ((API.search { username := "u", api_key := "k" } {}
        [⟨200, ⟨some [⟨some "a1", none, "x"⟩]⟩, ""⟩, ⟨401, ⟨none⟩, "denied"⟩]).yielded =
       [⟨some "a1", none, "x"⟩] ∧
     (API.search { username := "u", api_key := "k" } {}
        [⟨200, ⟨some [⟨some "a1", none, "x"⟩]⟩, ""⟩, ⟨401, ⟨none⟩, "denied"⟩]).outcome =
       .failed ⟨.authenticationError, "Authentication failed. Check your API key.",
                some 401, some "denied"⟩) := by
  constructor
  · exact search_auth_error_mid_run { username := "u", api_key := "k" } {} []
      ⟨401, ⟨none⟩, "denied"⟩ [] (by simp) List.Chain.nil rfl
  · have h := search_auth_error_mid_run { username := "u", api_key := "k" } {}
      [⟨200, ⟨some [⟨some "a1", none, "x"⟩]⟩, ""⟩] ⟨401, ⟨none⟩, "denied"⟩ []
      (by intro r hr; simp only [List.mem_singleton] at hr; subst hr; exact ⟨rfl, by decide⟩)
      (by
        refine List.Chain.cons ?_ List.Chain.nil
        intro htr heq
        simp [firstIdOf, rowsOf, _handle_response] at heq)
      rfl
    simpa [rowsOf, _handle_response] using h

theorem urlencode_remove_none_nil_iff (d : List (String × Option Value)) (k : String) :
    queryParams k (urlencode_doseq (_remove_none d)) = [] ↔
      ∀ kv ∈ d, kv.1 = k → (kv.2 = none ∨ kv.2 = some (.list [])) := by
  rw [queryParams_urlencode, keyParams_remove_none]
  induction d with
  | nil => simp [keyParamsO, _remove_none, urlencode_doseq]
  | cons kv d ih =>
    rcases kv with ⟨k', v⟩
    by_cases hk : k' = k
    · subst hk
      cases v with
      | none =>
        have h1 : keyParamsO k' ((k', (none : Option Value)) :: d) =
            (k', none) :: keyParamsO k' d := by
          unfold keyParamsO
          rw [List.filter_cons_of_pos (by simp)]
        rw [h1, show _remove_none ((k', (none : Option Value)) :: keyParamsO k' d) =
            _remove_none (keyParamsO k' d) from rfl, ih]
        constructor
        · intro h kv hkv hk1
          rcases List.mem_cons.mp hkv with he | hm
          · rw [he]; left; rfl
          · exact h kv hm hk1
        · intro h kv hkv hk1
          exact h kv (List.mem_cons_of_mem _ hkv) hk1
      | some w =>
        have h1 : keyParamsO k' ((k', some w) :: d) = (k', some w) :: keyParamsO k' d := by
          unfold keyParamsO
          rw [List.filter_cons_of_pos (by simp)]
        rw [h1, show _remove_none ((k', some w) :: keyParamsO k' d) =
            (k', w) :: _remove_none (keyParamsO k' d) from rfl,
            show urlencode_doseq ((k', w) :: _remove_none (keyParamsO k' d)) =
              pairsOf (k', w) ++ urlencode_doseq (_remove_none (keyParamsO k' d)) from rfl,
            List.append_eq_nil, ih]
        cases w with
        | str s =>
          constructor
          · rintro ⟨hpf, _⟩
            exact absurd hpf (by simp [pairsOf])
          · intro h
            exfalso
            have hx := h (k', some (.str s)) (List.mem_cons_self _ _) rfl
            rcases hx with h1 | h1 <;> simp at h1
        | int n =>
          constructor
          · rintro ⟨hpf, _⟩
            exact absurd hpf (by simp [pairsOf])
          · intro h
            exfalso
            have hx := h (k', some (.int n)) (List.mem_cons_self _ _) rfl
            rcases hx with h1 | h1 <;> simp at h1
        | list xs =>
          constructor
          · rintro ⟨hpf, htail⟩
            have hxs : xs = [] := by simpa [pairsOf] using hpf
            intro kv hkv hk1
            rcases List.mem_cons.mp hkv with he | hm
            · rw [he, hxs]; right; rfl
            · exact htail kv hm hk1
          · intro h
            have hx := h (k', some (.list xs)) (List.mem_cons_self _ _) rfl
            have hxs : xs = [] := by
              rcases hx with h1 | h1
              · simp at h1
              · simpa using h1
            refine ⟨by simp [pairsOf, hxs], ?_⟩
            intro kv hkv hk1
            exact h kv (List.mem_cons_of_mem _ hkv) hk1
    · have h1 : keyParamsO k ((k', v) :: d) = keyParamsO k d := by
        unfold keyParamsO
        rw [List.filter_cons_of_neg (by simp [hk])]
      rw [h1, ih]
      constructor
      · intro h kv hkv hk1
        rcases List.mem_cons.mp hkv with he | hm
        · exfalso
          rw [he] at hk1
          exact hk hk1
        · exact h kv hm hk1
      · intro h kv hkv hk1
        exact h kv (List.mem_cons_of_mem _ hkv) hk1

/-- C8 counterexample: the call `search(foo=[])` stores the non-`None`
value `[]` under `"foo"` in the search dictionary, survives
`_remove_none`, and yet `urlencode(…, doseq=True)` emits no `foo`
parameter at all — so a filter with a non-`None` value is not sent,
refuting the claimed "if and only if its value is not None". -/
theorem search_filter_omission_cex :
    keyParamsO "foo" (build_search_dict { username := "u", api_key := "k" }
        { kwargs := [("foo", some (.list []))] }) = [("foo", some (.list []))] ∧
    (API.search { username := "u", api_key := "k" }
        { kwargs := [("foo", some (.list []))] }
        [⟨200, ⟨some []⟩, ""⟩]).requests =
      [[("order", .str "asc"), ("limit", .int 200), ("offset", .int 0),
        ("foo", .list [])]] ∧
    queryParams "foo" (urlencode_doseq
      [(("order" : String), Value.str "asc"), ("limit", .int 200),
       ("offset", .int 0), ("foo", .list [])]) = [] := by
  refine ⟨by decide, by decide, by decide⟩

/-- C8 (amended): a parameter name appears in the first outgoing
request's query string iff some entry of the constructed search
dictionary under that name has a value that is neither `None` nor the
empty list; in particular unset (`None`) filters are omitted entirely
(never serialized as null or empty string), and the only non-`None`
values that are not sent are empty lists, which contribute one
parameter per element and hence none. -/
theorem search_filter_omission_amended (self : API) (a : SearchArgs)
    (resps : List (HttpResponse SearchBody)) (k : String)
    (d0 : List (String × Value))
    (hd0 : (API.search self a resps).requests.head? = some d0) :
    queryParams k (urlencode_doseq d0) = [] ↔
      ∀ kv ∈ build_search_dict self a, kv.1 = k →
        (kv.2 = none ∨ kv.2 = some (.list [])) := by
  have hd0' : d0 = _remove_none (build_search_dict self a) := by
    rw [API.search_eq] at hd0
    cases resps with
    | nil =>
      rw [searchLoop_nil] at hd0
      simp at hd0
    | cons r rest =>
      rw [searchLoop_requests_head] at hd0
      exact (Option.some_inj.mp hd0).symm
  rw [hd0']
  exact urlencode_remove_none_nil_iff (build_search_dict self a) k

/-- Witness for the amended C8 at a concrete call: the `uri` filter is
unset, and indeed no `uri` parameter appears. -/
theorem search_filter_omission_amended_witness :
    queryParams "uri" (urlencode_doseq
      [(("order" : String), Value.str "asc"), ("limit", .int 200),
       ("offset", .int 0)]) = [] ↔
      ∀ kv ∈ build_search_dict { username := "u", api_key := "k" } {}, kv.1 = "uri" →
        (kv.2 = none ∨ kv.2 = some (.list [])) :=
  search_filter_omission_amended { username := "u", api_key := "k" } {}
    [⟨200, ⟨some []⟩, ""⟩] "uri"
    [("order", .str "asc"), ("limit", .int 200), ("offset", .int 0)] (by decide)
